import Mathlib

/-!
Shallow embedding of `delta_code_review_tool.py`.

The tool reads two text files, computes an `ndiff`-style edit script between
them, expands the script into two aligned, line-numbered display sequences
(`compare_files`), and renders those sequences into a four-column spreadsheet
with green/red highlight fills and content-sized columns (`create_excel`).

Python strings are modelled as Lean `String` (a packed `List Char`), and the
string primitives the source uses (`startswith`, slicing `[2:]`, `rstrip`,
`strip('"')`, `split(' ', 1)`) are defined below over `String.data` with
Python's semantics.  The third-party diff primitive `difflib.ndiff` and the
file system are external collaborators: they enter as parameters, and the
documented contract of `ndiff` (its output restores either input when the
matching tag lines are kept) is the predicate `IsNdiffDelta`.
-/

/-- Auxiliary recursion for `pyStartsWith`: does the second list prefix the
first? -/
def startsWithAux : List Char → List Char → Bool
  | _, [] => true
  | [], _ :: _ => false
  | c :: cs, d :: ds => c == d && startsWithAux cs ds

/-- Python `s.startswith(pre)`. -/
def pyStartsWith (s pre : String) : Bool :=
  startsWithAux s.data pre.data

/-- Python slicing `s[k:]` (total: short strings give `""`). -/
def pyDrop (s : String) (k : Nat) : String :=
  ⟨s.data.drop k⟩

/-- Python's whitespace set for `str.rstrip()` (ASCII part). -/
def isPySpace (c : Char) : Bool :=
  c = ' ' || c = '\t' || c = '\n' || c = '\x0b' || c = '\x0c' || c = '\r'

/-- Python `s.rstrip()`: remove trailing whitespace. -/
def rstrip (s : String) : String :=
  ⟨((s.data.reverse.dropWhile isPySpace)).reverse⟩

/-- Remove every leading and trailing character satisfying `p`. -/
def stripChars (p : Char → Bool) (l : List Char) : List Char :=
  ((l.dropWhile p).reverse.dropWhile p).reverse

/-- Python `s.strip(c)` for a one-character argument: remove every leading and
trailing occurrence of `c`. -/
def pyStrip (c : Char) (s : String) : String :=
  ⟨stripChars (· == c) s.data⟩

/-- The f-string `f"{k} {t}"` of the source: decimal line number, one space,
then the text. -/
def fmt (k : Nat) (t : String) : String :=
  ⟨(Nat.repr k).data ++ ' ' :: t.data⟩

/-- An edit-script line with its two-character tag: `tagged c t` is the string
`c`, then a space, then `t` (so `tagged ' ' "a" = "  a"`). -/
def tagged (c : Char) (t : String) : String :=
  ⟨c :: ' ' :: t.data⟩

/-- The loop body of `compare_files` (source lines 24-41): walk the diff lines,
keeping two 1-based counters, and build the two aligned lists.  `.1` is
`new_lines`, `.2` is `old_lines`; a gap is the empty string. -/
def compareFilesLoop : List String → Nat → Nat → List String × List String
  | [], _, _ => ([], [])
  | l :: rest, o, n =>
    if pyStartsWith l " " then
      (fmt n (rstrip (pyDrop l 2)) :: (compareFilesLoop rest (o + 1) (n + 1)).1,
       fmt o (rstrip (pyDrop l 2)) :: (compareFilesLoop rest (o + 1) (n + 1)).2)
    else if pyStartsWith l "-" then
      ("" :: (compareFilesLoop rest (o + 1) n).1,
       fmt o (rstrip (pyDrop l 2)) :: (compareFilesLoop rest (o + 1) n).2)
    else if pyStartsWith l "+" then
      (fmt n (rstrip (pyDrop l 2)) :: (compareFilesLoop rest o (n + 1)).1,
       "" :: (compareFilesLoop rest o (n + 1)).2)
    else
      compareFilesLoop rest o n

/-- The alignment stage of `compare_files`, applied to the diff lines, with
both counters starting at 1 (source line 22). -/
def alignDiff (diff : List String) : List String × List String :=
  compareFilesLoop diff 1 1

/-- A diff line carries one of the four `ndiff` tags. -/
def properTag (l : String) : Bool :=
  pyStartsWith l "  " || pyStartsWith l "- " || pyStartsWith l "+ " || pyStartsWith l "? "

/-- The old-file lines recoverable from a diff (`difflib.restore(diff, 1)`). -/
def oldSideOf (diff : List String) : List String :=
  (diff.filter fun l => pyStartsWith l "  " || pyStartsWith l "- ").map fun l => pyDrop l 2

/-- The new-file lines recoverable from a diff (`difflib.restore(diff, 2)`). -/
def newSideOf (diff : List String) : List String :=
  (diff.filter fun l => pyStartsWith l "  " || pyStartsWith l "+ ").map fun l => pyDrop l 2

/-- The documented contract of `difflib.ndiff old new`: every emitted line is
tagged `"  "`, `"- "`, `"+ "` or `"? "`, and dropping the tags of the old-side
(resp. new-side) lines restores `old` (resp. `new`) exactly. -/
def IsNdiffDelta (old new diff : List String) : Prop :=
  (∀ l ∈ diff, properTag l = true) ∧ oldSideOf diff = old ∧ newSideOf diff = new

instance (old new diff : List String) : Decidable (IsNdiffDelta old new diff) := by
  unfold IsNdiffDelta
  infer_instance

/-- Count the diff lines carrying a given tag. -/
def countTag (diff : List String) (tag : String) : Nat :=
  (diff.filter fun l => pyStartsWith l tag).length

/-- A non-gap entry of an aligned list (a gap is the empty string). -/
def nonGap (e : String) : Bool :=
  !(e == "")

/-- The texts `ts`, each trailing-stripped and numbered consecutively from
`k` in the source's `f"{number} {text}"` format. -/
def numberedFrom (k : Nat) : List String → List String
  | [] => []
  | t :: ts => fmt k (rstrip t) :: numberedFrom (k + 1) ts

/-- A rendered spreadsheet row: the four cell values of a report line and the
two possible highlight fills (source lines 63-75).  `greenNew` marks the
new-content cell "added", `redOld` marks the old-content cell "removed". -/
structure RenderedRow where
  newNumber : String
  newContent : String
  oldNumber : String
  oldContent : String
  greenNew : Bool
  redOld : Bool
deriving DecidableEq

/-- Locate the first space of a character list: `some (before, after)` when a
space occurs, `none` otherwise. -/
def splitAtFirstSpace : List Char → Option (List Char × List Char)
  | [] => none
  | c :: cs =>
    if c = ' ' then some ([], cs)
    else
      match splitAtFirstSpace cs with
      | some (l, r) => some (c :: l, r)
      | none => none

/-- The row-cell pattern `line.split(' ', 1) if line else ('', '')` of source
lines 64-65: an empty entry gives two empty cells; otherwise the entry is split
at its first space.  A non-empty entry without a space makes the Python
unpacking raise `ValueError`, modelled by `none`. -/
def headerContent (s : String) : Option (String × String) :=
  if s = "" then some ("", "")
  else
    match splitAtFirstSpace s.data with
    | some (l, r) => some (⟨l⟩, ⟨r⟩)
    | none => none

/-- Build one rendered row from an aligned entry pair, with the highlight
`if`/`elif` of source lines 72-75. -/
def renderRow (line_new line_old : String) : Option RenderedRow :=
  match headerContent line_new, headerContent line_old with
  | some (nn, nc), some (bn, bc) =>
    some { newNumber := nn, newContent := nc, oldNumber := bn, oldContent := bc,
           greenNew := !(nc == "") && (bc == ""),
           redOld := !(!(nc == "") && (bc == "")) && (!(bc == "") && (nc == "")) }
  | _, _ => none

/-- The row loop of `create_excel` (source line 63): one rendered row per
zipped entry pair, the zip stopping at the shorter list. -/
def renderReport : List String → List String → Option (List RenderedRow)
  | ln :: lns, lo :: los =>
    match renderRow ln lo, renderReport lns los with
    | some row, some rest => some (row :: rest)
    | _, _ => none
  | _, _ => some []

/-- One `max` step of the width scan (source lines 80-83): a measurable cell
value bumps the running width, an unmeasurable one (`len` raising `TypeError`)
is skipped. -/
def updateWidth (w : Nat) (v : Option String) : Nat :=
  match v with
  | some s => max w s.length
  | none => w

/-- The width accumulated for one column of cells (source lines 78-83). -/
def columnWidth (col : List (Option String)) : Nat :=
  col.foldl updateWidth 0

/-- The four columns of cell values written by the row loop, in sheet order:
new number, new content, old number, old content. -/
def gridOf (rows : List RenderedRow) : List (List (Option String)) :=
  [rows.map fun r => some r.newNumber, rows.map fun r => some r.newContent,
   rows.map fun r => some r.oldNumber, rows.map fun r => some r.oldContent]

/-- `create_excel` (source lines 54-87): render the rows, then size each
column to its accumulated width times the fixed 1.2 padding factor.  The
result models the saved workbook: the rows and the four column widths. -/
def create_excel (new_lines old_lines : List String) :
    Option (List RenderedRow × List ℚ) :=
  match renderReport new_lines old_lines with
  | some rows => some (rows, (gridOf rows).map fun col => (columnWidth col : ℚ) * 1.2)
  | none => none

/-- `read_file` (source lines 9-11) over an explicit file-system model: `fs p`
is the line list of a readable file at `p`, and `none` when the path does not
exist or cannot be decoded; that failure propagates as an exception carrying
the path. -/
def read_file (fs : String → Option (List String)) (filename : String) :
    Except String (List String) :=
  match fs filename with
  | some lines => Except.ok lines
  | none => Except.error filename

/-- `compare_files` (source lines 19-42): read the old file, read the new file
(the evaluation order of `ndiff(read_file(old_file), read_file(new_file))`),
run the external diff primitive `nd`, and expand it with both counters at 1.
A read failure propagates. -/
def compare_files (fs : String → Option (List String))
    (nd : List String → List String → List String)
    (new_file old_file : String) : Except String (List String × List String) :=
  match read_file fs old_file with
  | Except.error e => Except.error e
  | Except.ok oldLines =>
    match read_file fs new_file with
    | Except.error e => Except.error e
    | Except.ok newLines => Except.ok (alignDiff (nd oldLines newLines))

/-- `main` (source lines 94-100): strip surrounding double quotes from the two
input paths (but not the output path), compare, render, and save.  The `.ok`
payload is the artifact: the path written and the workbook content. -/
def mainRun (fs : String → Option (List String))
    (nd : List String → List String → List String)
    (newRaw oldRaw outRaw : String) :
    Except String (String × (List RenderedRow × List ℚ)) :=
  match compare_files fs nd (pyStrip '"' newRaw) (pyStrip '"' oldRaw) with
  | Except.error e => Except.error e
  | Except.ok (new_lines, old_lines) =>
    match create_excel new_lines old_lines with
    | some wb => Except.ok (outRaw, wb)
    | none => Except.error "ValueError"

/-- Whether a run produced an output artifact. -/
def producesArtifact (r : Except String (String × (List RenderedRow × List ℚ))) : Bool :=
  match r with
  | Except.ok _ => true
  | Except.error _ => false

/-- The path the artifact of a successful run was written to. -/
def outputPathOf (r : Except String (String × (List RenderedRow × List ℚ))) :
    Option String :=
  match r with
  | Except.ok (p, _) => some p
  | Except.error _ => none

/-- Maximum length of the measurable cell values of a column (the spec's
description of the width rule). -/
def maxColLen (col : List (Option String)) : Nat :=
  ((col.filterMap id).map String.length).foldl max 0

/-- A two-file file system used to exercise the pipeline on concrete runs. -/
def fsDemo : String → Option (List String) :=
  fun p => if p = "new.txt" || p = "old.txt" then some ["a"] else none

/-- A concrete external diff value used to exercise the pipeline on concrete
runs where both files hold the single line `"a"`. -/
def ndDemo : List String → List String → List String :=
  fun _ _ => ["  a"]

-- Bridging lemmas: the source's `startswith` tests evaluated on tagged lines.

theorem data_tagged (c : Char) (t : String) : (tagged c t).data = c :: ' ' :: t.data := rfl

theorem pyDrop_tagged (c : Char) (t : String) : pyDrop (tagged c t) 2 = t := rfl

theorem sw_sp (c : Char) (t : String) : pyStartsWith (tagged c t) " " = (c == ' ') := by
  show startsWithAux (c :: ' ' :: t.data) [' '] = (c == ' ')
  simp [startsWithAux]

theorem sw_da (c : Char) (t : String) : pyStartsWith (tagged c t) "-" = (c == '-') := by
  show startsWithAux (c :: ' ' :: t.data) ['-'] = (c == '-')
  simp [startsWithAux]

theorem sw_pl (c : Char) (t : String) : pyStartsWith (tagged c t) "+" = (c == '+') := by
  show startsWithAux (c :: ' ' :: t.data) ['+'] = (c == '+')
  simp [startsWithAux]

theorem sw2_sp (c : Char) (t : String) : pyStartsWith (tagged c t) "  " = (c == ' ') := by
  show startsWithAux (c :: ' ' :: t.data) [' ', ' '] = (c == ' ')
  simp [startsWithAux]

theorem sw2_da (c : Char) (t : String) : pyStartsWith (tagged c t) "- " = (c == '-') := by
  show startsWithAux (c :: ' ' :: t.data) ['-', ' '] = (c == '-')
  simp [startsWithAux]

theorem sw2_pl (c : Char) (t : String) : pyStartsWith (tagged c t) "+ " = (c == '+') := by
  show startsWithAux (c :: ' ' :: t.data) ['+', ' '] = (c == '+')
  simp [startsWithAux]

theorem sw2_qm (c : Char) (t : String) : pyStartsWith (tagged c t) "? " = (c == '?') := by
  show startsWithAux (c :: ' ' :: t.data) ['?', ' '] = (c == '?')
  simp [startsWithAux]

/-- Every properly tagged diff line is `tagged c` of its text, for one of the
four tag characters. -/
theorem tag_cases (l : String) (h : properTag l = true) :
    l = tagged ' ' (pyDrop l 2) ∨ l = tagged '-' (pyDrop l 2) ∨
    l = tagged '+' (pyDrop l 2) ∨ l = tagged '?' (pyDrop l 2) := by
  obtain ⟨data⟩ := l
  match data with
  | [] => simp [properTag, pyStartsWith, startsWithAux] at h
  | [c] =>
    simp [properTag, pyStartsWith, startsWithAux] at h
  | c :: d :: rest =>
    have h2 : (c = ' ' ∧ d = ' ') ∨ (c = '-' ∧ d = ' ') ∨ (c = '+' ∧ d = ' ') ∨
        (c = '?' ∧ d = ' ') := by
      simp [properTag, pyStartsWith, startsWithAux] at h
      tauto
    rcases h2 with ⟨rfl, rfl⟩ | ⟨rfl, rfl⟩ | ⟨rfl, rfl⟩ | ⟨rfl, rfl⟩ <;>
      simp [tagged, pyDrop]

-- Loop equations, one per tag, mirroring the expansion rule.

theorem loop_unchanged (t : String) (rest : List String) (o n : Nat) :
    compareFilesLoop (tagged ' ' t :: rest) o n =
      (fmt n (rstrip t) :: (compareFilesLoop rest (o + 1) (n + 1)).1,
       fmt o (rstrip t) :: (compareFilesLoop rest (o + 1) (n + 1)).2) := by
  simp [compareFilesLoop, sw_sp, pyDrop_tagged]

theorem loop_del (t : String) (rest : List String) (o n : Nat) :
    compareFilesLoop (tagged '-' t :: rest) o n =
      ("" :: (compareFilesLoop rest (o + 1) n).1,
       fmt o (rstrip t) :: (compareFilesLoop rest (o + 1) n).2) := by
  simp [compareFilesLoop, sw_sp, sw_da, pyDrop_tagged]

theorem loop_ins (t : String) (rest : List String) (o n : Nat) :
    compareFilesLoop (tagged '+' t :: rest) o n =
      (fmt n (rstrip t) :: (compareFilesLoop rest o (n + 1)).1,
       "" :: (compareFilesLoop rest o (n + 1)).2) := by
  simp [compareFilesLoop, sw_sp, sw_da, sw_pl, pyDrop_tagged]

theorem loop_hint (t : String) (rest : List String) (o n : Nat) :
    compareFilesLoop (tagged '?' t :: rest) o n = compareFilesLoop rest o n := by
  simp [compareFilesLoop, sw_sp, sw_da, sw_pl]

-- Side restoration on a consed tagged line.

theorem newSideOf_u (t : String) (rest : List String) :
    newSideOf (tagged ' ' t :: rest) = t :: newSideOf rest := by
  simp [newSideOf, List.filter_cons, sw2_sp, sw2_pl, pyDrop_tagged]

theorem newSideOf_d (t : String) (rest : List String) :
    newSideOf (tagged '-' t :: rest) = newSideOf rest := by
  simp [newSideOf, List.filter_cons, sw2_sp, sw2_pl]

theorem newSideOf_i (t : String) (rest : List String) :
    newSideOf (tagged '+' t :: rest) = t :: newSideOf rest := by
  simp [newSideOf, List.filter_cons, sw2_sp, sw2_pl, pyDrop_tagged]

theorem newSideOf_q (t : String) (rest : List String) :
    newSideOf (tagged '?' t :: rest) = newSideOf rest := by
  simp [newSideOf, List.filter_cons, sw2_sp, sw2_pl]

theorem oldSideOf_u (t : String) (rest : List String) :
    oldSideOf (tagged ' ' t :: rest) = t :: oldSideOf rest := by
  simp [oldSideOf, List.filter_cons, sw2_sp, sw2_da, pyDrop_tagged]

theorem oldSideOf_d (t : String) (rest : List String) :
    oldSideOf (tagged '-' t :: rest) = t :: oldSideOf rest := by
  simp [oldSideOf, List.filter_cons, sw2_sp, sw2_da, pyDrop_tagged]

theorem oldSideOf_i (t : String) (rest : List String) :
    oldSideOf (tagged '+' t :: rest) = oldSideOf rest := by
  simp [oldSideOf, List.filter_cons, sw2_sp, sw2_da]

theorem oldSideOf_q (t : String) (rest : List String) :
    oldSideOf (tagged '?' t :: rest) = oldSideOf rest := by
  simp [oldSideOf, List.filter_cons, sw2_sp, sw2_da]

/-- Entries emitted by the numbering format are never gaps. -/
theorem fmt_ne_empty (k : Nat) (t : String) : fmt k t ≠ "" := by
  intro h
  have h2 : (Nat.repr k).data ++ ' ' :: t.data = ([] : List Char) := congrArg String.data h
  simp at h2

theorem nonGap_fmt (k : Nat) (t : String) : nonGap (fmt k t) = true := by
  simp [nonGap, fmt_ne_empty k t]

/-- Both aligned lists always have the same length: every handled diff line
appends one entry to each list, and every other diff line appends to neither. -/
theorem loop_lengths (diff : List String) : ∀ o n : Nat,
    ((compareFilesLoop diff o n).1).length = ((compareFilesLoop diff o n).2).length := by
  induction diff with
  | nil => intro o n; rfl
  | cons l rest ih =>
    intro o n
    simp only [compareFilesLoop]
    split
    · simp [ih]
    · split
      · simp [ih]
      · split
        · simp [ih]
        · exact ih o n

/-- Reconstruction of the new side: filtering the gaps out of `new_lines`
leaves exactly the new-file lines of the diff, trailing-stripped and numbered
consecutively from the starting counter. -/
theorem loop_filter_new (diff : List String) : ∀ o n : Nat,
    (∀ l ∈ diff, properTag l = true) →
    (compareFilesLoop diff o n).1.filter nonGap = numberedFrom n (newSideOf diff) := by
  induction diff with
  | nil => intro o n _; rfl
  | cons l rest ih =>
    intro o n h
    have hl := h l (List.mem_cons_self l rest)
    have hrest : ∀ x ∈ rest, properTag x = true := fun x hx => h x (List.mem_cons_of_mem l hx)
    rcases tag_cases l hl with hc | hc | hc | hc <;> rw [hc]
    · rw [loop_unchanged, newSideOf_u]
      simp [List.filter_cons, nonGap_fmt, numberedFrom, ih (o + 1) (n + 1) hrest]
    · rw [loop_del, newSideOf_d]
      simp [List.filter_cons, nonGap, ih (o + 1) n hrest]
    · rw [loop_ins, newSideOf_i]
      simp [List.filter_cons, nonGap_fmt, numberedFrom, ih o (n + 1) hrest]
    · rw [loop_hint, newSideOf_q]
      exact ih o n hrest

/-- Reconstruction of the old side, symmetrically. -/
theorem loop_filter_old (diff : List String) : ∀ o n : Nat,
    (∀ l ∈ diff, properTag l = true) →
    (compareFilesLoop diff o n).2.filter nonGap = numberedFrom o (oldSideOf diff) := by
  induction diff with
  | nil => intro o n _; rfl
  | cons l rest ih =>
    intro o n h
    have hl := h l (List.mem_cons_self l rest)
    have hrest : ∀ x ∈ rest, properTag x = true := fun x hx => h x (List.mem_cons_of_mem l hx)
    rcases tag_cases l hl with hc | hc | hc | hc <;> rw [hc]
    · rw [loop_unchanged, oldSideOf_u]
      simp [List.filter_cons, nonGap_fmt, numberedFrom, ih (o + 1) (n + 1) hrest]
    · rw [loop_del, oldSideOf_d]
      simp [List.filter_cons, nonGap_fmt, numberedFrom, ih (o + 1) n hrest]
    · rw [loop_ins, oldSideOf_i]
      simp [List.filter_cons, nonGap, ih o (n + 1) hrest]
    · rw [loop_hint, oldSideOf_q]
      exact ih o n hrest

/-- Row count: every properly tagged diff line contributes exactly one aligned
row when its tag is `"  "`, `"- "` or `"+ "`, and none otherwise. -/
theorem loop_length_counts (diff : List String) : ∀ o n : Nat,
    (∀ l ∈ diff, properTag l = true) →
    ((compareFilesLoop diff o n).1).length =
      countTag diff "  " + countTag diff "- " + countTag diff "+ " := by
  induction diff with
  | nil => intro o n _; rfl
  | cons l rest ih =>
    intro o n h
    have hl := h l (List.mem_cons_self l rest)
    have hrest : ∀ x ∈ rest, properTag x = true := fun x hx => h x (List.mem_cons_of_mem l hx)
    rcases tag_cases l hl with hc | hc | hc | hc <;> rw [hc]
    · rw [loop_unchanged]
      simp only [countTag, List.filter_cons, sw2_sp, sw2_da, sw2_pl]
      simp [countTag, ih (o + 1) (n + 1) hrest]
      omega
    · rw [loop_del]
      simp only [countTag, List.filter_cons, sw2_sp, sw2_da, sw2_pl]
      simp [countTag, ih (o + 1) n hrest]
      omega
    · rw [loop_ins]
      simp only [countTag, List.filter_cons, sw2_sp, sw2_da, sw2_pl]
      simp [countTag, ih o (n + 1) hrest]
      omega
    · rw [loop_hint]
      simp only [countTag, List.filter_cons, sw2_sp, sw2_da, sw2_pl]
      simp [countTag, ih o n hrest]

-- Decimal digits: the rendered line numbers contain no space.

theorem digitChar_lt10_ne_space : ∀ m : Nat, m < 10 → Nat.digitChar m ≠ ' ' := by decide

theorem toDigitsCore_no_space : ∀ (fuel n : Nat) (ds : List Char),
    (∀ c ∈ ds, c ≠ ' ') → ∀ c ∈ Nat.toDigitsCore 10 fuel n ds, c ≠ ' ' := by
  intro fuel
  induction fuel with
  | zero => intro n ds h; simpa [Nat.toDigitsCore] using h
  | succ fuel ih =>
    intro n ds h
    have hds : ∀ c ∈ Nat.digitChar (n % 10) :: ds, c ≠ ' ' := by
      intro c hc
      rcases List.mem_cons.mp hc with rfl | hc
      · exact digitChar_lt10_ne_space _ (Nat.mod_lt _ (by decide))
      · exact h c hc
    simp only [Nat.toDigitsCore]
    split
    · exact hds
    · exact ih _ _ hds

theorem repr_no_space (k : Nat) : ∀ c ∈ (Nat.repr k).data, c ≠ ' ' := by
  have h : (Nat.repr k).data = Nat.toDigitsCore 10 (k + 1) k [] := rfl
  rw [h]
  exact toDigitsCore_no_space _ _ _ (by simp)

/-- Splitting at the first space, when the head part has none. -/
theorem split_no_space : ∀ (xs rest : List Char), (∀ c ∈ xs, c ≠ ' ') →
    splitAtFirstSpace (xs ++ ' ' :: rest) = some (xs, rest) := by
  intro xs
  induction xs with
  | nil => intro rest _; simp [splitAtFirstSpace]
  | cons c cs ih =>
    intro rest h
    have hc : c ≠ ' ' := h c (List.mem_cons_self c cs)
    have hcs : ∀ x ∈ cs, x ≠ ' ' := fun x hx => h x (List.mem_cons_of_mem c hx)
    simp [splitAtFirstSpace, hc, ih rest hcs]

/-- The cell split of a gapless-but-empty entry `f"{k} "`: the number lands in
the number cell and the content cell is empty. -/
theorem headerContent_fmt_empty (k : Nat) :
    headerContent (fmt k "") = some (Nat.repr k, "") := by
  unfold headerContent
  rw [if_neg (fmt_ne_empty k "")]
  have hd : (fmt k "").data = (Nat.repr k).data ++ ' ' :: ([] : List Char) := rfl
  rw [hd, split_no_space _ _ (repr_no_space k)]

theorem headerContent_empty : headerContent "" = some ("", "") := rfl

-- Highlight rule, at the level of one rendered row.

theorem renderRow_highlights (a b : String) (r : RenderedRow)
    (h : renderRow a b = some r) :
    (r.greenNew = true ↔ (r.newContent ≠ "" ∧ r.oldContent = "")) ∧
    (r.redOld = true ↔ (r.oldContent ≠ "" ∧ r.newContent = "")) ∧
    ¬(r.greenNew = true ∧ r.redOld = true) := by
  cases ha : headerContent a with
  | none => simp [renderRow, ha] at h
  | some p =>
    cases hb : headerContent b with
    | none => simp [renderRow, ha, hb] at h
    | some q =>
      obtain ⟨nn, nc⟩ := p
      obtain ⟨bn, bc⟩ := q
      simp only [renderRow, ha, hb, Option.some.injEq] at h
      subst h
      by_cases h1 : nc = "" <;> by_cases h2 : bc = "" <;> simp [h1, h2]

/-- Every row of a successfully rendered report comes from `renderRow` on some
entry pair. -/
theorem renderReport_mem : ∀ (nl ol : List String) (rows : List RenderedRow),
    renderReport nl ol = some rows → ∀ r ∈ rows, ∃ a b, renderRow a b = some r := by
  intro nl
  induction nl with
  | nil =>
    intro ol rows h r hr
    cases ol <;> simp only [renderReport, Option.some.injEq] at h <;> subst h <;> simp at hr
  | cons ln lns ih =>
    intro ol rows h r hr
    cases ol with
    | nil =>
      simp only [renderReport, Option.some.injEq] at h
      subst h; simp at hr
    | cons lo los =>
      simp only [renderReport] at h
      cases h1 : renderRow ln lo with
      | none => rw [h1] at h; exact absurd h (by simp)
      | some row =>
        cases h2 : renderReport lns los with
        | none => rw [h1, h2] at h; exact absurd h (by simp)
        | some rest =>
          rw [h1, h2] at h
          simp only [Option.some.injEq] at h
          subst h
          rcases List.mem_cons.mp hr with rfl | hr
          · exact ⟨ln, lo, h1⟩
          · exact ih los rest h2 r hr

-- The width scan with skipping computes the maximum measurable cell length.

theorem foldl_updateWidth (col : List (Option String)) : ∀ acc : Nat,
    col.foldl updateWidth acc = ((col.filterMap id).map String.length).foldl max acc := by
  induction col with
  | nil => intro acc; rfl
  | cons v rest ih =>
    intro acc
    cases v with
    | none => simpa [updateWidth] using ih acc
    | some s => simpa [updateWidth] using ih (max acc s.length)

theorem columnWidth_eq_max (col : List (Option String)) :
    columnWidth col = maxColLen col :=
  foldl_updateWidth col 0

-- Quote stripping is idempotent, so stripping before use is all that matters.

theorem dropWhile_length_le (p : Char → Bool) :
    ∀ l : List Char, (List.dropWhile p l).length ≤ l.length := by
  intro l
  induction l with
  | nil => simp
  | cons x xs ih =>
    rw [List.dropWhile_cons]
    split
    · exact Nat.le_succ_of_le ih
    · exact Nat.le_refl _

theorem dropWhile_prefix_of_append (p : Char → Bool) :
    ∀ u v : List Char, List.dropWhile p (u ++ v) = u ++ v →
      List.dropWhile p u = u := by
  intro u v h
  cases u with
  | nil => rfl
  | cons x u2 =>
    rw [List.cons_append, List.dropWhile_cons] at h
    by_cases hx : p x = true
    · rw [if_pos hx] at h
      have hlen := dropWhile_length_le p (u2 ++ v)
      rw [h] at hlen
      simp at hlen
    · rw [if_neg hx] at h
      rw [List.dropWhile_cons, if_neg hx]

theorem stripChars_idem (p : Char → Bool) (l : List Char) :
    stripChars p (stripChars p l) = stripChars p l := by
  unfold stripChars
  have hA : List.dropWhile p (List.dropWhile p l) = List.dropWhile p l :=
    List.dropWhile_idempotent p l
  have hsplit : (List.dropWhile p l).reverse.takeWhile p ++
      (List.dropWhile p l).reverse.dropWhile p = (List.dropWhile p l).reverse :=
    List.takeWhile_append_dropWhile p (List.dropWhile p l).reverse
  have hrev : List.dropWhile p l =
      ((List.dropWhile p l).reverse.dropWhile p).reverse ++
        ((List.dropWhile p l).reverse.takeWhile p).reverse := by
    conv_lhs => rw [← List.reverse_reverse (List.dropWhile p l), ← hsplit]
    rw [List.reverse_append]
  have hstep : List.dropWhile p (((List.dropWhile p l).reverse.dropWhile p).reverse) =
      ((List.dropWhile p l).reverse.dropWhile p).reverse := by
    apply dropWhile_prefix_of_append p _ (((List.dropWhile p l).reverse.takeWhile p).reverse)
    rw [← hrev]
    exact hA
  rw [hstep, List.reverse_reverse, List.dropWhile_idempotent]

theorem pyStrip_idem (c : Char) (s : String) :
    pyStrip c (pyStrip c s) = pyStrip c s :=
  congrArg String.mk (stripChars_idem (· == c) s.data)

/-- C1: for every valid ndiff edit script over `(oldLines, newLines)`, the
non-gap new-side entries of the aligned output, in row order, are exactly
`newLines` trailing-stripped and numbered consecutively from 1; symmetrically,
the non-gap old-side entries reproduce `oldLines`. -/
theorem c1_reconstruction (old new diff : List String)
    (h : IsNdiffDelta old new diff) :
    (alignDiff diff).1.filter nonGap = numberedFrom 1 new ∧
    (alignDiff diff).2.filter nonGap = numberedFrom 1 old := by
  obtain ⟨ht, ho, hn⟩ := h
  constructor
  · rw [alignDiff, loop_filter_new diff 1 1 ht, hn]
  · rw [alignDiff, loop_filter_old diff 1 1 ht, ho]

theorem c1_reconstruction_witness :
    IsNdiffDelta ["a", "b", "c"] ["a", "x", "c"] ["  a", "- b", "+ x", "  c"] ∧
    (alignDiff ["  a", "- b", "+ x", "  c"]).1.filter nonGap =
      numberedFrom 1 ["a", "x", "c"] ∧
    (alignDiff ["  a", "- b", "+ x", "  c"]).2.filter nonGap =
      numberedFrom 1 ["a", "b", "c"] :=
  ⟨by decide, (c1_reconstruction ["a", "b", "c"] ["a", "x", "c"] _ (by decide)).1,
    (c1_reconstruction ["a", "b", "c"] ["a", "x", "c"] _ (by decide)).2⟩

/-- C2: for every valid ndiff edit script, the number of aligned rows equals
the number of unchanged plus deleted plus inserted operations; no row merges
two operations. -/
theorem c2_row_count (old new diff : List String) (h : IsNdiffDelta old new diff) :
    ((alignDiff diff).1).length =
      countTag diff "  " + countTag diff "- " + countTag diff "+ " :=
  loop_length_counts diff 1 1 h.1

theorem c2_row_count_witness :
    IsNdiffDelta ["a", "b", "c"] ["a", "x", "c"] ["  a", "- b", "+ x", "  c"] ∧
    ((alignDiff ["  a", "- b", "+ x", "  c"]).1).length =
      countTag ["  a", "- b", "+ x", "  c"] "  " +
        countTag ["  a", "- b", "+ x", "  c"] "- " +
        countTag ["  a", "- b", "+ x", "  c"] "+ " :=
  ⟨by decide, c2_row_count ["a", "b", "c"] ["a", "x", "c"] _ (by decide)⟩

/-- C3: in every rendered report, a row's new-content cell is highlighted as
added iff its new content is non-empty and its old content empty; the
old-content cell is highlighted as removed iff old content is non-empty and
new content empty; no row carries both highlights. -/
theorem c3_highlight_exact (nl ol : List String) (rows : List RenderedRow)
    (h : renderReport nl ol = some rows) :
    ∀ r ∈ rows,
      (r.greenNew = true ↔ (r.newContent ≠ "" ∧ r.oldContent = "")) ∧
      (r.redOld = true ↔ (r.oldContent ≠ "" ∧ r.newContent = "")) ∧
      ¬(r.greenNew = true ∧ r.redOld = true) := by
  intro r hr
  obtain ⟨a, b, hab⟩ := renderReport_mem nl ol rows h r hr
  exact renderRow_highlights a b r hab

theorem c3_highlight_exact_witness :
    ((⟨"1", "a", "", "", true, false⟩ : RenderedRow).greenNew = true ↔
      ((⟨"1", "a", "", "", true, false⟩ : RenderedRow).newContent ≠ "" ∧
        (⟨"1", "a", "", "", true, false⟩ : RenderedRow).oldContent = "")) ∧
    ((⟨"1", "a", "", "", true, false⟩ : RenderedRow).redOld = true ↔
      ((⟨"1", "a", "", "", true, false⟩ : RenderedRow).oldContent ≠ "" ∧
        (⟨"1", "a", "", "", true, false⟩ : RenderedRow).newContent = "")) ∧
    ¬((⟨"1", "a", "", "", true, false⟩ : RenderedRow).greenNew = true ∧
      (⟨"1", "a", "", "", true, false⟩ : RenderedRow).redOld = true) :=
  c3_highlight_exact ["1 a"] [""] [⟨"1", "a", "", "", true, false⟩] (by decide)
    ⟨"1", "a", "", "", true, false⟩ (by decide)

/-- C4: the expansion rule: both counters start at 1; an unchanged line emits
one row numbered with the current counters on both sides and bumps both; a
deletion emits one row carrying the old number and text with a gap on the new
side, bumping only the old counter; an insertion emits one row carrying the
new number and text with a gap on the old side, bumping only the new
counter. -/
theorem c4_expansion_rule :
    (∀ diff : List String, alignDiff diff = compareFilesLoop diff 1 1) ∧
    (∀ (t : String) (rest : List String) (o n : Nat),
      compareFilesLoop (tagged ' ' t :: rest) o n =
        (fmt n (rstrip t) :: (compareFilesLoop rest (o + 1) (n + 1)).1,
         fmt o (rstrip t) :: (compareFilesLoop rest (o + 1) (n + 1)).2)) ∧
    (∀ (t : String) (rest : List String) (o n : Nat),
      compareFilesLoop (tagged '-' t :: rest) o n =
        ("" :: (compareFilesLoop rest (o + 1) n).1,
         fmt o (rstrip t) :: (compareFilesLoop rest (o + 1) n).2)) ∧
    (∀ (t : String) (rest : List String) (o n : Nat),
      compareFilesLoop (tagged '+' t :: rest) o n =
        (fmt n (rstrip t) :: (compareFilesLoop rest o (n + 1)).1,
         "" :: (compareFilesLoop rest o (n + 1)).2)) :=
  ⟨fun _ => rfl, loop_unchanged, loop_del, loop_ins⟩

/-- C5: on `old = ["a","b","c"]`, `new = ["a","x","c"]` the recorded ndiff
output is `["  a","- b","+ x","  c"]` (a valid delta for these inputs), and the
pipeline produces exactly four rows: unchanged "a"/"a" numbered 1/1, removed
old "b" numbered 2 with a new-side gap, added new "x" numbered 2 with an
old-side gap, unchanged "c"/"c" numbered 3/3 — deletion row before insertion
row, not a single substituted row. -/
theorem c5_mixed_case :
    IsNdiffDelta ["a", "b", "c"] ["a", "x", "c"] ["  a", "- b", "+ x", "  c"] ∧
    alignDiff ["  a", "- b", "+ x", "  c"] =
      (["1 a", "", "2 x", "3 c"], ["1 a", "2 b", "", "3 c"]) ∧
    renderReport ["1 a", "", "2 x", "3 c"] ["1 a", "2 b", "", "3 c"] =
      some [⟨"1", "a", "1", "a", false, false⟩,
            ⟨"", "", "2", "b", false, true⟩,
            ⟨"2", "x", "", "", true, false⟩,
            ⟨"3", "c", "3", "c", false, false⟩] :=
  ⟨by decide, by decide, by decide⟩

/-- C6 counterexample: a run whose output path is surrounded by double quotes
writes the artifact at the still-quoted path; the quotes are not stripped from
the output path before use. -/
theorem c6_counterexample :
    outputPathOf (mainRun fsDemo ndDemo "new.txt" "old.txt" "\"out.xlsx\"") =
      some "\"out.xlsx\"" ∧
    pyStrip '"' "\"out.xlsx\"" = "out.xlsx" ∧
    "\"out.xlsx\"" ≠ "out.xlsx" :=
  ⟨rfl, by decide, by decide⟩

/-- C6 amended: surrounding quote characters are stripped from the two input
file paths before they are used for reading, and the output path is used
exactly as the user provided it, without stripping. -/
theorem c6_amended_strip (fs : String → Option (List String))
    (nd : List String → List String → List String) (newRaw oldRaw outRaw : String) :
    mainRun fs nd newRaw oldRaw outRaw =
      mainRun fs nd (pyStrip '"' newRaw) (pyStrip '"' oldRaw) outRaw ∧
    Option.all (fun p => p == outRaw)
      (outputPathOf (mainRun fs nd newRaw oldRaw outRaw)) = true := by
  constructor
  · simp only [mainRun, pyStrip_idem]
  · unfold mainRun outputPathOf
    cases compare_files fs nd (pyStrip '"' newRaw) (pyStrip '"' oldRaw) with
    | error e => rfl
    | ok pr =>
      obtain ⟨a1, a2⟩ := pr
      cases hce : create_excel a1 a2 with
      | none => simp [hce, Option.all]
      | some wb => simp [hce, Option.all]

/-- C7: the rendered width of each of the four columns equals the maximum
character length over the measurable cell values of that column, multiplied by
exactly 1.2; unmeasurable values are skipped by the scan without aborting. -/
theorem c7_column_width (nl ol : List String) (rows : List RenderedRow)
    (widths : List ℚ) (h : create_excel nl ol = some (rows, widths)) :
    widths = (gridOf rows).map fun col => (maxColLen col : ℚ) * 1.2 := by
  unfold create_excel at h
  cases hr : renderReport nl ol with
  | none => rw [hr] at h; exact absurd h (by simp)
  | some rows2 =>
    rw [hr] at h
    simp only [Option.some.injEq, Prod.mk.injEq] at h
    obtain ⟨h1, h2⟩ := h
    subst h1
    rw [← h2]
    have hfun : (fun col => ((columnWidth col : ℚ) * 1.2)) =
        fun col => ((maxColLen col : ℚ) * 1.2) := by
      funext col
      rw [columnWidth_eq_max]
    rw [hfun]

theorem c7_column_width_witness :
    ((gridOf [⟨"1", "a", "1", "a", false, false⟩]).map
        fun col => ((columnWidth col : ℚ) * 1.2)) =
      ((gridOf [⟨"1", "a", "1", "a", false, false⟩]).map
        fun col => ((maxColLen col : ℚ) * 1.2)) :=
  c7_column_width ["1 a"] ["1 a"] [⟨"1", "a", "1", "a", false, false⟩] _ rfl

/-- C8: when either input path (after quote stripping) cannot be read, the
read error propagates and the run produces no output artifact. -/
theorem c8_read_error (fs : String → Option (List String))
    (nd : List String → List String → List String) (newRaw oldRaw outRaw : String)
    (h : fs (pyStrip '"' newRaw) = none ∨ fs (pyStrip '"' oldRaw) = none) :
    producesArtifact (mainRun fs nd newRaw oldRaw outRaw) = false := by
  rcases h with h | h
  · cases ho : fs (pyStrip '"' oldRaw) with
    | none => simp [mainRun, compare_files, read_file, producesArtifact, ho]
    | some ol => simp [mainRun, compare_files, read_file, producesArtifact, ho, h]
  · simp [mainRun, compare_files, read_file, producesArtifact, h]

theorem c8_read_error_witness :
    (fsDemo (pyStrip '"' "nope.txt") = none ∨
      fsDemo (pyStrip '"' "old.txt") = none) ∧
    producesArtifact (mainRun fsDemo ndDemo "nope.txt" "old.txt" "out.xlsx") = false :=
  ⟨Or.inl (by decide),
    c8_read_error fsDemo ndDemo "nope.txt" "old.txt" "out.xlsx" (Or.inl (by decide))⟩

/-- C9: the two aligned lists always have equal length, so the renderer's zip
never silently drops an entry, and a hint line (the `"? "` lines of the diff
primitive) appends to neither list. -/
theorem c9_equal_lengths :
    (∀ diff : List String,
      ((alignDiff diff).1).length = ((alignDiff diff).2).length) ∧
    (∀ (t : String) (rest : List String) (o n : Nat),
      compareFilesLoop (tagged '?' t :: rest) o n = compareFilesLoop rest o n) :=
  ⟨fun diff => loop_lengths diff 1 1, loop_hint⟩

/-- C10: an inserted or deleted line whose text strips to empty yields a row
whose content entry is the bare number `f"{k} "`; its content cell splits to
the empty string, exactly like the gap on the other side, so the row receives
neither highlight. -/
theorem c10_blank_line_no_highlight (t : String) (rest : List String) (o n : Nat)
    (h : rstrip t = "") :
    (compareFilesLoop (tagged '+' t :: rest) o n).1.head? = some (fmt n "") ∧
    (compareFilesLoop (tagged '+' t :: rest) o n).2.head? = some "" ∧
    (compareFilesLoop (tagged '-' t :: rest) o n).1.head? = some "" ∧
    (compareFilesLoop (tagged '-' t :: rest) o n).2.head? = some (fmt o "") ∧
    renderRow (fmt n "") "" = some ⟨Nat.repr n, "", "", "", false, false⟩ ∧
    renderRow "" (fmt o "") = some ⟨"", "", Nat.repr o, "", false, false⟩ := by
  refine ⟨?_, ?_, ?_, ?_, ?_, ?_⟩
  · rw [loop_ins, h]; rfl
  · rw [loop_ins]; rfl
  · rw [loop_del]; rfl
  · rw [loop_del, h]; rfl
  · rw [renderRow, headerContent_fmt_empty, headerContent_empty]
    simp
  · rw [renderRow, headerContent_fmt_empty, headerContent_empty]
    simp

theorem c10_blank_line_no_highlight_witness :
    rstrip "" = "" ∧
    ((compareFilesLoop [tagged '+' ""] 1 1).1.head? = some (fmt 1 "") ∧
     (compareFilesLoop [tagged '+' ""] 1 1).2.head? = some "" ∧
     (compareFilesLoop [tagged '-' ""] 1 1).1.head? = some "" ∧
     (compareFilesLoop [tagged '-' ""] 1 1).2.head? = some (fmt 1 "") ∧
     renderRow (fmt 1 "") "" = some ⟨Nat.repr 1, "", "", "", false, false⟩ ∧
     renderRow "" (fmt 1 "") = some ⟨"", "", Nat.repr 1, "", false, false⟩) :=
  ⟨by decide, c10_blank_line_no_highlight "" [] 1 1 (by decide)⟩
